import Mathlib

/-!
Shallow embedding of `mkdocs_git_revision_date_localized_plugin/util.py`.

Python exceptions are modelled with `Except`; the process environment
(filesystem, environment variables, git command outputs, the clock) is an
explicit `ProcState`/`GitCmd` record threaded through the definitions.
The external libraries (`babel.dates`, GitPython, `datetime`) are modelled
by executable Lean functions faithful to their documented behaviour on the
inputs the plugin uses.
-/

set_option autoImplicit false

namespace GitRevDate

/-- Python exception kinds that can propagate out of the code under study. -/
inductive Err where
  /-- `Repo(...)` failed to locate a repository (InvalidGitRepositoryError / NoSuchPathError). -/
  | repositoryNotFound
  /-- The git executable is missing when locating the repository. -/
  | toolNotInstalled
  /-- `GitCommandError` raised by a `git log` invocation. -/
  | gitCommandError
  /-- `GitCommandNotFound` raised by a `git log` invocation. -/
  | gitCommandNotFound
  /-- Python `IndexError` (e.g. `[][0]`). -/
  | indexError
  /-- Python `ValueError` (e.g. `int("abc")`). -/
  | valueError
  /-- `babel` rejected the locale identifier (UnknownLocaleError / ValueError). -/
  | invalidLocale
  /-- `babel.dates.get_timezone` rejected the timezone identifier (LookupError). -/
  | invalidTimezone
  /-- Python `AttributeError` (accessing `self.repo` when it was never assigned). -/
  | attributeError
  deriving DecidableEq, Repr

/-- Log messages the module can emit, identified by which call site emits them. -/
inductive LogMsg where
  /-- Warning from `__init__`: no git directory, falling back to build date. -/
  | fallbackBuildDateWarning
  /-- Warning from `__init__`: gitlab runner with a shallow fetch depth. -/
  | gitlabShallowWarning
  /-- Warning from `__init__`: github actions with a shallow fetch depth. -/
  | githubShallowWarning
  /-- Warning from `get_revision_date_for_file`: git logs unreadable, falling back. -/
  | gitLogUnreadableWarning (path : String)
  /-- Warning from `get_revision_date_for_file`: git not installed, falling back. -/
  | gitNotInstalledWarning
  /-- Warning from `get_revision_date_for_file`: file has no git logs, using current timestamp. -/
  | noGitLogsWarning (path : String)
  deriving DecidableEq, Repr

/-- A civil date-time, the model of a Python `datetime.datetime` value. -/
structure CivilDT where
  year : Int
  month : Nat
  day : Nat
  hour : Nat
  minute : Nat
  second : Nat
  deriving DecidableEq, Repr

/-- Civil (year, month, day) from a count of days since the Unix epoch
(the arithmetic behind `datetime.utcfromtimestamp`). -/
def civilFromDays (z0 : Int) : Int × Nat × Nat :=
  let z := z0 + 719468
  let era := z.fdiv 146097
  let doe := (z.emod 146097).toNat
  let yoe := (doe - doe / 1460 + doe / 36524 - doe / 146096) / 365
  let y : Int := (yoe : Int) + era * 400
  let doy := doe - (365 * yoe + yoe / 4 - yoe / 100)
  let mp := (5 * doy + 2) / 153
  let d := doy - (153 * mp + 2) / 5 + 1
  let m := if mp < 10 then mp + 3 else mp - 9
  (y + (if m ≤ 2 then 1 else 0), m, d)

/-- Model of `datetime.utcfromtimestamp`: a Unix timestamp in seconds to a UTC civil date-time. -/
def civilFromUnix (ts : Int) : CivilDT :=
  let days := ts.fdiv 86400
  let secs := (ts.emod 86400).toNat
  let ymd := civilFromDays days
  { year := ymd.1, month := ymd.2.1, day := ymd.2.2
    hour := secs / 3600, minute := secs % 3600 / 60, second := secs % 60 }

/-- The decimal digit character for `n % 10`. -/
def digitChar (n : Nat) : Char := Char.ofNat (48 + n % 10)

/-- Two-digit zero-padded decimal rendering, the model of `strftime` fields
`%H`, `%M`, `%S`, `%m`, `%d` (whose values are always below 100). -/
def pad2 (n : Nat) : String := String.mk [digitChar (n / 10), digitChar n]

/-- Model of the `strftime` field `%Y` for the years `datetime` supports. -/
def pad4 (y : Int) : String :=
  if y < 0 then "-" ++ Nat.repr y.natAbs
  else if y.natAbs < 10000 then
    String.mk [digitChar (y.natAbs / 1000), digitChar (y.natAbs / 100),
               digitChar (y.natAbs / 10), digitChar y.natAbs]
  else Nat.repr y.natAbs

/-- Model of `strftime("%H:%M:%S")`. -/
def hmsStr (d : CivilDT) : String :=
  pad2 d.hour ++ ":" ++ pad2 d.minute ++ ":" ++ pad2 d.second

/-- Model of `strftime("%Y-%m-%d")`. -/
def isoDateStr (d : CivilDT) : String :=
  pad4 d.year ++ "-" ++ pad2 d.month ++ "-" ++ pad2 d.day

/-- A timezone as the plugin consumes it: a name and a fixed UTC offset in
seconds. (Real tz-database zones can have varying offsets; no property
under study depends on the offset values themselves.) -/
structure TZ where
  name : String
  offset : Int
  deriving DecidableEq, Repr

/-- The model's fragment of the tz database known to `babel.dates.get_timezone`. -/
def tzOffsets : List (String × Int) :=
  [("UTC", 0), ("Etc/GMT-1", 3600), ("Europe/Amsterdam", 3600),
   ("America/New_York", -18000), ("Asia/Tokyo", 32400)]

/-- Model of `babel.dates.get_timezone`: look the name up in the tz database,
raising `LookupError` (here `Err.invalidTimezone`) for unknown names. -/
def get_timezone (s : String) : Except Err TZ :=
  match tzOffsets.find? (fun p => p.1 == s) with
  | some p => Except.ok { name := p.1, offset := p.2 }
  | none => Except.error Err.invalidTimezone

/-- The locale identifiers known to the model of `babel`. -/
def knownLocales : List String := ["en", "de", "fr", "nl", "es"]

/-- English month name, for the long date format. -/
def monthName : Nat → String
  | 1 => "January" | 2 => "February" | 3 => "March" | 4 => "April"
  | 5 => "May" | 6 => "June" | 7 => "July" | 8 => "August"
  | 9 => "September" | 10 => "October" | 11 => "November" | 12 => "December"
  | _ => "Undecimber"

/-- Model of `babel.dates.format_date(date, format="long", locale=locale)`:
raises for an unknown locale, otherwise renders a long-form localized date.
(The model renders every known locale in the English pattern; no property
under study inspects the localized text itself.) -/
def format_date (d : CivilDT) (locale : String) : Except Err String :=
  if knownLocales.contains locale then
    Except.ok (monthName d.month ++ " " ++ Nat.repr d.day ++ ", " ++ pad4 d.year)
  else Except.error Err.invalidLocale

/-- An apostrophe, kept out of string literals. -/
def sq : String := String.singleton (Char.ofNat 39)

/-- Model of `datetime.isoformat()` on a timezone-aware value. -/
def isoformatStr (d : CivilDT) (tz : TZ) : String :=
  let off := tz.offset
  let sign := if off < 0 then "-" else "+"
  let a := off.natAbs
  isoDateStr d ++ "T" ++ hmsStr d ++ sign ++ pad2 (a / 3600) ++ ":" ++ pad2 (a % 3600 / 60)

/-- The mapping returned by `Util._date_formats`. -/
structure DateFormats where
  date : String
  datetime : String
  iso_date : String
  iso_datetime : String
  timeago : String
  deriving DecidableEq, Repr

/-- `Util._date_formats` from `util.py`: interpret the timestamp as UTC,
convert to the requested timezone, and render the five string variants.
`get_timezone("UTC")` is evaluated first (inside `.replace(...)`), then
`get_timezone(time_zone)`, then the two `format_date` calls. -/
def Util._date_formats (unix_timestamp : Int) (locale : String := "en")
    (time_zone : String := "UTC") : Except Err DateFormats := do
  let _utc ← get_timezone "UTC"
  let tz ← get_timezone time_zone
  let loc_revision_date := civilFromUnix (unix_timestamp + tz.offset)
  let dateLong ← format_date loc_revision_date locale
  let dateLong2 ← format_date loc_revision_date locale
  Except.ok
    { date := dateLong
      datetime := dateLong2 ++ " " ++ hmsStr loc_revision_date
      iso_date := isoDateStr loc_revision_date
      iso_datetime := isoDateStr loc_revision_date ++ " " ++ hmsStr loc_revision_date
      timeago := "<span class=" ++ sq ++ "timeago" ++ sq ++ " datetime=" ++ sq
        ++ isoformatStr loc_revision_date tz ++ sq ++ " locale=" ++ sq ++ locale
        ++ sq ++ "></span>" }

/-- `validTz tz` holds when the model tz database knows `tz`. -/
def validTz (tz : String) : Bool := (tzOffsets.find? (fun p => p.1 == tz)).isSome

/-- `validLocale l` holds when the model of `babel` knows the locale `l`. -/
def validLocale (l : String) : Bool := knownLocales.contains l

/-- Outcome of a `self.repo.log(path, n=1, date="short", format="%at")` call.
A successful call returns the raw output: `none` models the empty string
(no history for the path), `some t` models the decimal author timestamp `t`. -/
inductive LogOutcome where
  /-- The command succeeded with the given output. -/
  | ok (out : Option Int)
  /-- The command raised `GitCommandError`. -/
  | gitCommandError
  /-- The command raised `GitCommandNotFound`. -/
  | gitCommandNotFound
  deriving DecidableEq, Repr

/-- A located repository's command interface (`git_repo.git` in the source),
modelled by the outputs its git invocations produce, together with the one
piece of repository metadata the spec talks about: whether the repository's
own metadata directory contains the `shallow` marker file (a fact the code
never consults). -/
structure GitCmd where
  /-- Output of `repo.for_each_ref()` (GitPython strips the trailing newline). -/
  forEachRefOut : String
  /-- Output of `repo.rev_list(ref, count=True, first_parent=True)` per ref. -/
  revListCount : String → String
  /-- Outcome of `repo.log(path, n=1, date="short", format="%at")` per path. -/
  logResult : String → LogOutcome
  /-- Whether this repository's own metadata directory holds the shallow marker. -/
  ownShallowMarker : Bool

/-- The process-wide state the module reads: the outcome of locating a
repository from the starting path, the filesystem relative to the current
working directory, the CI environment variables, and the wall clock. -/
structure ProcState where
  /-- Outcome of `Repo(path, search_parent_directories=True)`. -/
  locateResult : Except Err GitCmd
  /-- `os.path.exists`, relative to the process working directory. -/
  pathExists : String → Bool
  /-- `os.environ.get("GITLAB_CI")`. -/
  gitlab_ci : Option String
  /-- `os.environ.get("GITHUB_ACTIONS")`. -/
  github_actions : Option String
  /-- `time.time()`, truncated to whole seconds. -/
  nowTime : Int

/-- Python truthiness of an `os.environ.get` result: set and non-empty. -/
def truthy : Option String → Bool
  | none => false
  | some s => s ≠ ""

/-- The plugin configuration the constructor reads. -/
structure Config where
  /-- Truthiness of `config.get("fallback_to_build_date")`. -/
  fallback_to_build_date : Bool

/-- The fields a constructed `Util` instance carries: `fallback_enabled`,
and `self.repo` (`none` when the attribute was never assigned). -/
structure UtilState where
  fallback_enabled : Bool
  repo : Option GitCmd

/-- `is_shallow_clone` from `util.py`: its body is
`os.path.exists(".git/shallow")` — a check against the process working
directory that ignores the `repo` argument entirely. -/
def is_shallow_clone (st : ProcState) (repo : GitCmd) : Bool :=
  st.pathExists ".git/shallow"

/-- Split a character list at every character satisfying `p`, keeping empty
pieces. The result is always non-empty. -/
def splitOnPred (p : Char → Bool) : List Char → List (List Char)
  | [] => [[]]
  | c :: cs =>
    match splitOnPred p cs with
    | [] => [[]]
    | h :: t => if p c then [] :: h :: t else (c :: h) :: t

/-- Python `str.split("\n")`: split at every newline, keeping empty pieces. -/
def pyLines (s : String) : List String :=
  (splitOnPred (fun c => c = Char.ofNat 10) s.data).map (fun l => String.mk l)

/-- Python `str.split()` with no separator: split on whitespace runs,
discarding empty pieces. -/
def pySplitWs (s : String) : List String :=
  ((splitOnPred (fun c => c.isWhitespace) s.data).map (fun l => String.mk l)).filter
    (fun t => t ≠ "")

/-- The numeric value of a decimal digit character. -/
def digitVal (c : Char) : Option Nat :=
  if 48 ≤ c.toNat ∧ c.toNat ≤ 57 then some (c.toNat - 48) else none

/-- Accumulate the decimal value of a digit run; `none` on a non-digit. -/
def digitsToNatAux : List Char → Nat → Option Nat
  | [], acc => some acc
  | c :: cs, acc =>
    match digitVal c with
    | some d => digitsToNatAux cs (acc * 10 + d)
    | none => none

/-- Python `int(s)` on the decimal strings git produces (an optional minus
sign followed by digits), raising `ValueError` otherwise. -/
def pyInt (s : String) : Except Err Int :=
  match s.data with
  | [] => Except.error Err.valueError
  | c :: cs =>
    if c = Char.ofNat 45 then
      match cs with
      | [] => Except.error Err.valueError
      | _ :: _ =>
        match digitsToNatAux cs 0 with
        | some n => Except.ok (-(n : Int))
        | none => Except.error Err.valueError
    else
      match digitsToNatAux (c :: cs) 0 with
      | some n => Except.ok ((n : Int))
      | none => Except.error Err.valueError

/-- Python `max(l)` on a list: `ValueError` on empty input. -/
def pyMax (l : List Int) : Except Err Int :=
  match l with
  | [] => Except.error Err.valueError
  | x :: xs => Except.ok (xs.foldl max x)

/-- `refs = repo.for_each_ref().split("\n"); refs = [x.split()[0] for x in refs]`:
first whitespace token of every line, `IndexError` on a line with no token. -/
def firstTokens (out : String) : Except Err (List String) :=
  (pyLines out).mapM (fun x =>
    match pySplitWs x with
    | [] => Except.error Err.indexError
    | t :: _ => Except.ok t)

/-- `commit_count` from `util.py`: list the references, count the commits
reachable from each (first-parent), and return the maximum count. -/
def commit_count (repo : GitCmd) : Except Err Int := do
  let refs ← firstTokens repo.forEachRefOut
  let counts ← refs.mapM (fun x => pyInt (repo.revListCount x))
  pyMax counts

/-- `Util.__init__` from `util.py`: locate the repository (on failure either
record fallback-only mode or re-raise, per the config flag), then run the
advisory shallow-clone detection. Returns the constructed instance state
together with the warnings logged. -/
def Util.init (st : ProcState) (config : Config) :
    Except Err (UtilState × List LogMsg) :=
  match st.locateResult with
  | Except.error e =>
    if config.fallback_to_build_date then
      Except.ok ({ fallback_enabled := true, repo := none },
        [LogMsg.fallbackBuildDateWarning])
    else
      Except.error e
  | Except.ok r =>
    if is_shallow_clone st r then
      match commit_count r with
      | Except.error e => Except.error e
      | Except.ok n =>
        let logs1 := if truthy st.gitlab_ci && decide (n < 50) then
          [LogMsg.gitlabShallowWarning] else []
        let logs2 := if truthy st.github_actions && decide (n = 1) then
          [LogMsg.githubShallowWarning] else []
        Except.ok ({ fallback_enabled := false, repo := some r }, logs1 ++ logs2)
    else
      Except.ok ({ fallback_enabled := false, repo := some r }, [])

/-- `Util.get_revision_date_for_file` from `util.py`: query the most recent
log entry for the path unless in fallback-only mode, catch the two git
error kinds per the `fallback_to_build_date` flag, substitute the current
time for a missing timestamp, and format. Returns the mapping together
with the warnings logged. -/
def Util.get_revision_date_for_file (st : ProcState) (u : UtilState)
    (path : String) (locale : String := "en") (time_zone : String := "UTC")
    (fallback_to_build_date : Bool := false) :
    Except Err (DateFormats × List LogMsg) := do
  let queried ←
    if u.fallback_enabled then
      Except.ok ((none : Option Int), ([] : List LogMsg))
    else
      match u.repo with
      | none => Except.error Err.attributeError
      | some r =>
        match r.logResult path with
        | LogOutcome.ok v => Except.ok (v, [])
        | LogOutcome.gitCommandError =>
          if fallback_to_build_date then
            Except.ok (none, [LogMsg.gitLogUnreadableWarning path])
          else Except.error Err.gitCommandError
        | LogOutcome.gitCommandNotFound =>
          if fallback_to_build_date then
            Except.ok (none, [LogMsg.gitNotInstalledWarning])
          else Except.error Err.gitCommandNotFound
  let stamped :=
    match queried.1 with
    | some t => (t, ([] : List LogMsg))
    | none => (st.nowTime,
        if u.fallback_enabled then [] else [LogMsg.noGitLogsWarning path])
  let df ← Util._date_formats stamped.1 locale time_zone
  Except.ok (df, queried.2 ++ stamped.2)

/-! ## Helper lemmas -/

theorem except_bind_ok {α β : Type} (a : α) (f : α → Except Err β) :
    (Except.ok a : Except Err α) >>= f = f a := rfl

theorem except_bind_err {α β : Type} (e : Err) (f : α → Except Err β) :
    (Except.error e : Except Err α) >>= f = Except.error e := rfl

theorem get_timezone_ok_of_valid (tz : String) (h : validTz tz = true) :
    ∃ z, get_timezone tz = Except.ok z := by
  unfold validTz at h
  unfold get_timezone
  cases hf : tzOffsets.find? (fun p => p.1 == tz) with
  | none => rw [hf] at h; simp at h
  | some p => exact ⟨_, rfl⟩

theorem get_timezone_valid_of_ok (tz : String) (z : TZ)
    (h : get_timezone tz = Except.ok z) : validTz tz = true := by
  unfold get_timezone at h
  unfold validTz
  cases hf : tzOffsets.find? (fun p => p.1 == tz) with
  | none => rw [hf] at h; exact absurd h (by simp)
  | some p => simp

theorem format_date_ok_of_valid (d : CivilDT) (l : String)
    (h : validLocale l = true) : ∃ s, format_date d l = Except.ok s := by
  unfold validLocale at h
  unfold format_date
  rw [h]
  exact ⟨_, rfl⟩

theorem format_date_valid_of_ok (d : CivilDT) (l : String) (s : String)
    (h : format_date d l = Except.ok s) : validLocale l = true := by
  unfold format_date at h
  unfold validLocale
  by_cases hc : knownLocales.contains l = true
  · exact hc
  · rw [Bool.not_eq_true] at hc
    rw [hc] at h
    exact absurd h (by simp)

theorem get_timezone_err_of_invalid (tz : String) (h : validTz tz = false) :
    get_timezone tz = Except.error Err.invalidTimezone := by
  unfold validTz at h
  unfold get_timezone
  cases hf : tzOffsets.find? (fun p => p.1 == tz) with
  | none => rfl
  | some p => rw [hf] at h; simp at h

theorem format_date_err_of_invalid (d : CivilDT) (l : String)
    (h : validLocale l = false) :
    format_date d l = Except.error Err.invalidLocale := by
  unfold validLocale at h
  unfold format_date
  rw [h]
  rfl

theorem dateFormats_ok_of_valid (ts : Int) (l tz : String)
    (hl : validLocale l = true) (htz : validTz tz = true) :
    ∃ df, Util._date_formats ts l tz = Except.ok df := by
  obtain ⟨z, hz⟩ := get_timezone_ok_of_valid tz htz
  obtain ⟨s, hs⟩ := format_date_ok_of_valid (civilFromUnix (ts + z.offset)) l hl
  unfold Util._date_formats
  rw [show get_timezone "UTC" = Except.ok { name := "UTC", offset := 0 } from rfl]
  rw [except_bind_ok, hz, except_bind_ok]
  simp only [hs, except_bind_ok]
  exact ⟨_, rfl⟩

theorem dateFormats_valid_of_ok (ts : Int) (l tz : String) (df : DateFormats)
    (h : Util._date_formats ts l tz = Except.ok df) :
    validTz tz = true ∧ validLocale l = true := by
  unfold Util._date_formats at h
  rw [show get_timezone "UTC" = Except.ok { name := "UTC", offset := 0 } from rfl,
    except_bind_ok] at h
  cases hz : get_timezone tz with
  | error e => rw [hz, except_bind_err] at h; exact absurd h (by simp)
  | ok z =>
    rw [hz, except_bind_ok] at h
    refine ⟨get_timezone_valid_of_ok tz z hz, ?_⟩
    cases hs : format_date (civilFromUnix (ts + z.offset)) l with
    | error e =>
      simp only [hs, except_bind_err] at h
      exact absurd h (by simp)
    | ok s => exact format_date_valid_of_ok _ l s hs

/-! ## Claims -/

/-- Claim C10: the result of `is_shallow_clone` is independent of its
repository argument — under the same process state any two repository
handles give the same answer, and that answer is exactly whether
`.git/shallow` exists relative to the process working directory, not
whether the located repository's own metadata directory holds the marker. -/
theorem C10_is_shallow_clone_ignores_repo (st : ProcState) (r1 r2 : GitCmd) :
    is_shallow_clone st r1 = is_shallow_clone st r2 ∧
    is_shallow_clone st r1 = st.pathExists ".git/shallow" :=
  ⟨rfl, rfl⟩

/-- Claim C1: when the repository cannot be located (`Repo(...)` raised),
`Util.__init__` re-raises the locate error and returns no partial result if
`fallback_to_build_date` is disabled; if it is enabled, construction
succeeds, records fallback-only mode (`fallback_enabled = true`, no
repository handle), and logs only the fallback warning. -/
theorem C1_locate_failure (st : ProcState) (config : Config) (e : Err)
    (h : st.locateResult = Except.error e) :
    (config.fallback_to_build_date = false → Util.init st config = Except.error e) ∧
    (config.fallback_to_build_date = true →
      Util.init st config =
        Except.ok ({ fallback_enabled := true, repo := none },
          [LogMsg.fallbackBuildDateWarning])) := by
  unfold Util.init
  rw [h]
  constructor <;> intro hf <;> simp [hf]

/-- Supporting state for the C1 witness: locating the repository fails. -/
def c1State : ProcState :=
  { locateResult := Except.error Err.repositoryNotFound
    pathExists := fun _ => false
    gitlab_ci := none
    github_actions := none
    nowTime := 1700000000 }

/-- Witness for C1 at a concrete failing locate: with fallback disabled the
constructor propagates the error, with fallback enabled it succeeds in
fallback-only mode. -/
theorem C1_locate_failure_witness :
    Util.init c1State { fallback_to_build_date := false } =
      Except.error Err.repositoryNotFound ∧
    Util.init c1State { fallback_to_build_date := true } =
      Except.ok ({ fallback_enabled := true, repo := none },
        [LogMsg.fallbackBuildDateWarning]) :=
  ⟨(C1_locate_failure c1State { fallback_to_build_date := false }
      Err.repositoryNotFound rfl).1 rfl,
   (C1_locate_failure c1State { fallback_to_build_date := true }
      Err.repositoryNotFound rfl).2 rfl⟩

/-- Claim C2: in fallback-only mode (`fallback_enabled = true`) every call to
`get_revision_date_for_file` is equal to formatting the current wall-clock
time, for every path, locale, timezone and per-call flag. The right-hand
side mentions neither the repository handle nor any git query, so no
history query is performed, and no warning is logged. -/
theorem C2_fallback_only_uses_now (st : ProcState) (u : UtilState)
    (path locale time_zone : String) (fb : Bool)
    (h : u.fallback_enabled = true) :
    Util.get_revision_date_for_file st u path locale time_zone fb =
      (Util._date_formats st.nowTime locale time_zone).map
        (fun d => (d, ([] : List LogMsg))) := by
  unfold Util.get_revision_date_for_file
  rw [h]
  simp only [if_true, except_bind_ok]
  cases Util._date_formats st.nowTime locale time_zone <;> rfl

/-- Supporting state for the C2 witness: a repository whose log query would
raise, to show fallback-only mode never reaches it. -/
def c2State : ProcState :=
  { locateResult := Except.error Err.repositoryNotFound
    pathExists := fun _ => false
    gitlab_ci := none
    github_actions := none
    nowTime := 1690000000 }

/-- Witness for C2 at a concrete fallback-only instance and file path. -/
theorem C2_fallback_only_uses_now_witness :
    Util.get_revision_date_for_file c2State
        { fallback_enabled := true, repo := none } "docs/index.md" "en" "UTC" false =
      (Util._date_formats c2State.nowTime "en" "UTC").map
        (fun d => (d, ([] : List LogMsg))) :=
  C2_fallback_only_uses_now c2State { fallback_enabled := true, repo := none }
    "docs/index.md" "en" "UTC" false rfl

theorem pad2_length (n : Nat) : (pad2 n).length = 2 := rfl

theorem hmsStr_length (d : CivilDT) : (hmsStr d).length = 8 := rfl

/-- Claim C4: whenever `_date_formats` succeeds, there is one `HH:MM:SS`
time string `t` (of length 8, computed in the requested timezone) such that
`datetime` is the long date followed by a space and `t`, and `iso_datetime`
is exactly `iso_date`, one space, and that same `t`. -/
theorem C4_iso_datetime_decomposition (ts : Int) (locale time_zone : String)
    (df : DateFormats)
    (h : Util._date_formats ts locale time_zone = Except.ok df) :
    ∃ t : String, t.length = 8 ∧ df.datetime = df.date ++ " " ++ t ∧
      df.iso_datetime = df.iso_date ++ " " ++ t := by
  unfold Util._date_formats at h
  rw [show get_timezone "UTC" = Except.ok { name := "UTC", offset := 0 } from rfl,
    except_bind_ok] at h
  cases hz : get_timezone time_zone with
  | error e => rw [hz, except_bind_err] at h; simp at h
  | ok z =>
    rw [hz, except_bind_ok] at h
    cases hs : format_date (civilFromUnix (ts + z.offset)) locale with
    | error e => simp only [hs, except_bind_err] at h; simp at h
    | ok s =>
      simp only [hs, except_bind_ok] at h
      cases h
      exact ⟨hmsStr (civilFromUnix (ts + z.offset)), hmsStr_length _, rfl, rfl⟩

/-- Witness for C4 at timestamp 1690000000, locale `en`, timezone `UTC`. -/
theorem C4_iso_datetime_decomposition_witness :
    ∃ df, Util._date_formats 1690000000 "en" "UTC" = Except.ok df ∧
      ∃ t : String, t.length = 8 ∧ df.datetime = df.date ++ " " ++ t ∧
        df.iso_datetime = df.iso_date ++ " " ++ t := by
  obtain ⟨df, hdf⟩ := dateFormats_ok_of_valid 1690000000 "en" "UTC" rfl rfl
  exact ⟨df, hdf, C4_iso_datetime_decomposition 1690000000 "en" "UTC" df hdf⟩

theorem df_ok_of_bind_ok {β : Type} (x : Int) (l tz : String)
    (k : DateFormats → Except Err β) (b : β)
    (h : (Util._date_formats x l tz >>= k) = Except.ok b) :
    ∃ df, Util._date_formats x l tz = Except.ok df := by
  cases hdf : Util._date_formats x l tz with
  | error e => rw [hdf, except_bind_err] at h; simp at h
  | ok df => exact ⟨df, rfl⟩

/-- Structural fact about `get_revision_date_for_file`: a successful call
went through a successful `_date_formats` evaluation on some timestamp. -/
theorem get_ok_imp_df_ok (st : ProcState) (u : UtilState)
    (path locale time_zone : String) (fb : Bool) (d : DateFormats)
    (logs : List LogMsg)
    (h : Util.get_revision_date_for_file st u path locale time_zone fb =
      Except.ok (d, logs)) :
    ∃ ts df, Util._date_formats ts locale time_zone = Except.ok df := by
  unfold Util.get_revision_date_for_file at h
  cases hfe : u.fallback_enabled with
  | true =>
    rw [hfe] at h
    simp only [if_true, except_bind_ok] at h
    obtain ⟨df, hdf⟩ := df_ok_of_bind_ok _ _ _ _ _ h
    exact ⟨_, df, hdf⟩
  | false =>
    rw [hfe] at h
    simp only [Bool.false_eq_true, if_false] at h
    cases hr : u.repo with
    | none =>
      simp only [hr, except_bind_err] at h
      exact absurd h (by simp)
    | some r =>
      simp only [hr] at h
      cases hlr : r.logResult path with
      | ok v =>
        simp only [hlr, except_bind_ok] at h
        obtain ⟨df, hdf⟩ := df_ok_of_bind_ok _ _ _ _ _ h
        exact ⟨_, df, hdf⟩
      | gitCommandError =>
        simp only [hlr] at h
        cases hfb : fb with
        | true =>
          simp only [hfb, if_true, except_bind_ok] at h
          obtain ⟨df, hdf⟩ := df_ok_of_bind_ok _ _ _ _ _ h
          exact ⟨_, df, hdf⟩
        | false =>
          simp only [hfb, Bool.false_eq_true, if_false, except_bind_err] at h
          exact absurd h (by simp)
      | gitCommandNotFound =>
        simp only [hlr] at h
        cases hfb : fb with
        | true =>
          simp only [hfb, if_true, except_bind_ok] at h
          obtain ⟨df, hdf⟩ := df_ok_of_bind_ok _ _ _ _ _ h
          exact ⟨_, df, hdf⟩
        | false =>
          simp only [hfb, Bool.false_eq_true, if_false, except_bind_err] at h
          exact absurd h (by simp)

/-- Claim C5: `_date_formats` fails fast with `InvalidTimezone` on an
unknown timezone, fails fast with `InvalidLocale` on an unknown locale, and
never silently defaults: any successful `get_revision_date_for_file` call
(whatever the fallback configuration) had a valid timezone and locale, so
formatting errors are never suppressed by a fallback flag. -/
theorem C5_formatting_errors_fail_fast (ts : Int) (locale time_zone : String) :
    (validTz time_zone = false →
      Util._date_formats ts locale time_zone = Except.error Err.invalidTimezone) ∧
    (validTz time_zone = true → validLocale locale = false →
      Util._date_formats ts locale time_zone = Except.error Err.invalidLocale) ∧
    (∀ st u path fb d logs,
      Util.get_revision_date_for_file st u path locale time_zone fb =
        Except.ok (d, logs) →
      validTz time_zone = true ∧ validLocale locale = true) := by
  refine ⟨?_, ?_, ?_⟩
  · intro htz
    unfold Util._date_formats
    rw [show get_timezone "UTC" = Except.ok { name := "UTC", offset := 0 } from rfl,
      except_bind_ok, get_timezone_err_of_invalid time_zone htz, except_bind_err]
  · intro htz hl
    obtain ⟨z, hz⟩ := get_timezone_ok_of_valid time_zone htz
    unfold Util._date_formats
    rw [show get_timezone "UTC" = Except.ok { name := "UTC", offset := 0 } from rfl,
      except_bind_ok, hz, except_bind_ok]
    simp only [format_date_err_of_invalid _ locale hl, except_bind_err]
  · intro st u path fb d logs h
    obtain ⟨ts', df, hdf⟩ := get_ok_imp_df_ok st u path locale time_zone fb d logs h
    exact dateFormats_valid_of_ok ts' locale time_zone df hdf

/-- Witness for C5: an unknown timezone fails with `InvalidTimezone`, an
unknown locale (with a valid timezone) fails with `InvalidLocale`. -/
theorem C5_formatting_errors_fail_fast_witness :
    Util._date_formats 0 "en" "Not/AZone" = Except.error Err.invalidTimezone ∧
    Util._date_formats 0 "xx" "UTC" = Except.error Err.invalidLocale :=
  ⟨(C5_formatting_errors_fail_fast 0 "en" "Not/AZone").1 rfl,
   (C5_formatting_errors_fail_fast 0 "xx" "UTC").2.1 rfl rfl⟩

/-- Every state constructed by `Util.init` is well formed: when not in
fallback-only mode it carries a repository handle. This discharges the
well-formedness hypothesis of the C3 theorem for every reachable instance. -/
theorem init_ok_wf (st : ProcState) (config : Config) (u : UtilState)
    (logs : List LogMsg) (h : Util.init st config = Except.ok (u, logs)) :
    u.fallback_enabled = false → u.repo.isSome = true := by
  unfold Util.init at h
  cases hl : st.locateResult with
  | error e =>
    simp only [hl] at h
    cases hf : config.fallback_to_build_date with
    | true =>
      simp only [hf, if_true] at h
      injection h with h'
      injection h' with h1 h2
      rw [← h1]
      intro hc
      exact absurd hc (by simp)
    | false =>
      simp only [hf, Bool.false_eq_true, if_false] at h
      exact absurd h (by simp)
  | ok r =>
    simp only [hl] at h
    cases hsh : is_shallow_clone st r with
    | false =>
      simp only [hsh, Bool.false_eq_true, if_false] at h
      injection h with h'
      injection h' with h1 h2
      rw [← h1]
      intro _
      rfl
    | true =>
      simp only [hsh, if_true] at h
      cases hcc : commit_count r with
      | error e =>
        simp only [hcc] at h
        exact absurd h (by simp)
      | ok n =>
        simp only [hcc] at h
        injection h with h'
        injection h' with h1 h2
        rw [← h1]
        intro _
        rfl

/-- Claim C3: with a valid locale and timezone, whenever fallback is
permitted — the per-call flag is set or the instance is in fallback-only
mode — `get_revision_date_for_file` returns a result mapping and never
propagates an error; and an error can propagate only when the per-call
fallback flag is off, the instance is not in fallback-only mode, and the
history query itself raised one of the two git error kinds. -/
theorem C3_no_error_when_fallback_permitted (st : ProcState) (u : UtilState)
    (path locale time_zone : String) (fb : Bool)
    (hl : validLocale locale = true) (htz : validTz time_zone = true)
    (hwf : u.fallback_enabled = false → u.repo.isSome = true) :
    ((fb = true ∨ u.fallback_enabled = true) →
      ∃ d logs, Util.get_revision_date_for_file st u path locale time_zone fb =
        Except.ok (d, logs)) ∧
    (∀ e, Util.get_revision_date_for_file st u path locale time_zone fb =
        Except.error e →
      fb = false ∧ u.fallback_enabled = false ∧
      ∃ r, u.repo = some r ∧
        (r.logResult path = LogOutcome.gitCommandError ∨
         r.logResult path = LogOutcome.gitCommandNotFound)) := by
  unfold Util.get_revision_date_for_file
  cases hfe : u.fallback_enabled with
  | true =>
    simp only [hfe, if_true, except_bind_ok]
    obtain ⟨df, hdf⟩ := dateFormats_ok_of_valid st.nowTime locale time_zone hl htz
    simp only [hdf, except_bind_ok]
    constructor
    · intro _; exact ⟨df, _, rfl⟩
    · intro e he; exact absurd he (by simp)
  | false =>
    obtain ⟨r, hr⟩ := Option.isSome_iff_exists.mp (hwf hfe)
    simp only [hfe, Bool.false_eq_true, if_false, hr]
    cases hlr : r.logResult path with
    | ok v =>
      simp only [hlr, except_bind_ok]
      cases v with
      | none =>
        obtain ⟨df, hdf⟩ := dateFormats_ok_of_valid st.nowTime locale time_zone hl htz
        simp only [hdf, except_bind_ok]
        constructor
        · intro _; exact ⟨df, _, rfl⟩
        · intro e he; exact absurd he (by simp)
      | some t =>
        obtain ⟨df, hdf⟩ := dateFormats_ok_of_valid t locale time_zone hl htz
        simp only [hdf, except_bind_ok]
        constructor
        · intro _; exact ⟨df, _, rfl⟩
        · intro e he; exact absurd he (by simp)
    | gitCommandError =>
      simp only [hlr]
      cases hfb : fb with
      | true =>
        simp only [if_true, except_bind_ok]
        obtain ⟨df, hdf⟩ := dateFormats_ok_of_valid st.nowTime locale time_zone hl htz
        simp only [hdf, except_bind_ok]
        constructor
        · intro _; exact ⟨df, _, rfl⟩
        · intro e he; exact absurd he (by simp)
      | false =>
        simp only [Bool.false_eq_true, if_false, except_bind_err]
        constructor
        · intro hperm
          rcases hperm with hh | hh <;> simp at hh
        · intro e _
          refine ⟨by simp, by simp, r, ?_, Or.inl hlr⟩
          simp [hr]
    | gitCommandNotFound =>
      simp only [hlr]
      cases hfb : fb with
      | true =>
        simp only [if_true, except_bind_ok]
        obtain ⟨df, hdf⟩ := dateFormats_ok_of_valid st.nowTime locale time_zone hl htz
        simp only [hdf, except_bind_ok]
        constructor
        · intro _; exact ⟨df, _, rfl⟩
        · intro e he; exact absurd he (by simp)
      | false =>
        simp only [Bool.false_eq_true, if_false, except_bind_err]
        constructor
        · intro hperm
          rcases hperm with hh | hh <;> simp at hh
        · intro e _
          refine ⟨by simp, by simp, r, ?_, Or.inr hlr⟩
          simp [hr]

/-- Supporting repository for the C3 witness: the log query raises
`GitCommandError`, so the per-call fallback path is exercised. -/
def c3Repo : GitCmd :=
  { forEachRefOut := "x1 commit refs/heads/main"
    revListCount := fun _ => "5"
    logResult := fun _ => LogOutcome.gitCommandError
    ownShallowMarker := false }

/-- Supporting state for the C3 witness. -/
def c3State : ProcState :=
  { locateResult := Except.ok c3Repo
    pathExists := fun _ => false
    gitlab_ci := none
    github_actions := none
    nowTime := 1690000000 }

/-- Witness for C3: a failing history query with the per-call fallback flag
set still produces a result mapping. -/
theorem C3_no_error_when_fallback_permitted_witness :
    ∃ d logs, Util.get_revision_date_for_file c3State
      { fallback_enabled := false, repo := some c3Repo } "a.md" "en" "UTC" true =
      Except.ok (d, logs) :=
  (C3_no_error_when_fallback_permitted c3State
    { fallback_enabled := false, repo := some c3Repo } "a.md" "en" "UTC" true
    rfl rfl (fun _ => rfl)).1 (Or.inl rfl)

/-- Supporting repository for the C6 counterexample: one reference whose
reachable commit count is 1. -/
def c6Repo : GitCmd :=
  { forEachRefOut := "b1 commit refs/heads/main"
    revListCount := fun _ => "1"
    logResult := fun _ => LogOutcome.ok none
    ownShallowMarker := true }

/-- Supporting state for the C6 counterexample: shallow marker present,
`GITHUB_ACTIONS` set, `GITLAB_CI` unset. -/
def c6State : ProcState :=
  { locateResult := Except.ok c6Repo
    pathExists := fun p => p == ".git/shallow"
    gitlab_ci := none
    github_actions := some "true"
    nowTime := 0 }

/-- Counterexample to C6: with a shallow clone, `GITHUB_ACTIONS` set and an
effective depth of exactly 1, the constructor emits the GitHub Actions
warning, yet the depth is not below GitHub's default shallow-fetch depth
of 1 — so "warn exactly when the depth is below the default" is false. -/
theorem C6_counterexample :
    commit_count c6Repo = Except.ok 1 ∧
    Util.init c6State { fallback_to_build_date := false } =
      Except.ok ({ fallback_enabled := false, repo := some c6Repo },
        [LogMsg.githubShallowWarning]) ∧
    ¬ (LogMsg.githubShallowWarning ∈ [LogMsg.githubShallowWarning] ↔
        (is_shallow_clone c6State c6Repo = true ∧
         truthy c6State.github_actions = true ∧ (1 : Int) < 1)) :=
  ⟨rfl, rfl, by decide⟩

/-- Claim C6 (amended): during construction with a located repository, the
GitLab CI warning is emitted exactly when the shallow check holds,
`GITLAB_CI` is truthy and the effective depth is below 50, and the GitHub
Actions warning is emitted exactly when the shallow check holds,
`GITHUB_ACTIONS` is truthy and the effective depth equals 1 (GitHub's
default depth) — for GitHub the code tests equality with the default
depth, not strictly below it. -/
theorem C6_amended_ci_warnings (st : ProcState) (config : Config)
    (r : GitCmd) (n : Int)
    (hl : st.locateResult = Except.ok r)
    (hc : is_shallow_clone st r = true → commit_count r = Except.ok n) :
    ∃ logs, Util.init st config =
      Except.ok ({ fallback_enabled := false, repo := some r }, logs) ∧
      (LogMsg.gitlabShallowWarning ∈ logs ↔
        (is_shallow_clone st r = true ∧ truthy st.gitlab_ci = true ∧ n < 50)) ∧
      (LogMsg.githubShallowWarning ∈ logs ↔
        (is_shallow_clone st r = true ∧ truthy st.github_actions = true ∧ n = 1)) := by
  unfold Util.init
  simp only [hl]
  cases hsh : is_shallow_clone st r with
  | false =>
    simp only [Bool.false_eq_true, if_false]
    refine ⟨[], rfl, ?_, ?_⟩ <;> simp [hsh]
  | true =>
    simp only [if_true, hc hsh]
    refine ⟨_, rfl, ?_, ?_⟩
    · cases hg : truthy st.gitlab_ci <;> by_cases h50 : n < 50 <;>
        cases hh : truthy st.github_actions <;> by_cases h1 : n = 1 <;>
          simp [hg, h50, hh, h1, hsh]
    · cases hg : truthy st.gitlab_ci <;> by_cases h50 : n < 50 <;>
        cases hh : truthy st.github_actions <;> by_cases h1 : n = 1 <;>
          simp [hg, h50, hh, h1, hsh]

/-- Supporting repository for the C6 witness: two references with counts 5
and 2, so the effective depth is 5. -/
def c6wRepo : GitCmd :=
  { forEachRefOut := "d1 commit refs/heads/main\nd2 commit refs/tags/v1"
    revListCount := fun x => if x = "d1" then "5" else "2"
    logResult := fun _ => LogOutcome.ok none
    ownShallowMarker := true }

/-- Supporting state for the C6 witness: shallow marker present and
`GITLAB_CI` truthy. -/
def c6wState : ProcState :=
  { locateResult := Except.ok c6wRepo
    pathExists := fun p => p == ".git/shallow"
    gitlab_ci := some "1"
    github_actions := none
    nowTime := 0 }

/-- Witness for the amended C6 at a concrete shallow GitLab state with
effective depth 5. -/
theorem C6_amended_ci_warnings_witness :
    ∃ logs, Util.init c6wState { fallback_to_build_date := false } =
      Except.ok ({ fallback_enabled := false, repo := some c6wRepo }, logs) ∧
      (LogMsg.gitlabShallowWarning ∈ logs ↔
        (is_shallow_clone c6wState c6wRepo = true ∧
         truthy c6wState.gitlab_ci = true ∧ (5 : Int) < 50)) ∧
      (LogMsg.githubShallowWarning ∈ logs ↔
        (is_shallow_clone c6wState c6wRepo = true ∧
         truthy c6wState.github_actions = true ∧ (5 : Int) = 1)) :=
  C6_amended_ci_warnings c6wState { fallback_to_build_date := false } c6wRepo 5
    rfl (fun _ => rfl)

/-- Supporting repository for the C7 counterexample: `for_each_ref` returns
the empty string, so `"".split()[0]` in `commit_count` raises `IndexError`. -/
def c7Repo : GitCmd :=
  { forEachRefOut := ""
    revListCount := fun _ => "1"
    logResult := fun _ => LogOutcome.ok none
    ownShallowMarker := true }

/-- Supporting state for the C7 counterexample: repository located, shallow
marker present. -/
def c7State : ProcState :=
  { locateResult := Except.ok c7Repo
    pathExists := fun p => p == ".git/shallow"
    gitlab_ci := none
    github_actions := none
    nowTime := 0 }

/-- Counterexample to C7: the advisory shallow-clone detection is not
raise-free — with the repository successfully located but the reference
listing empty, `commit_count` raises `IndexError` and construction fails,
so the detection step did change control flow. -/
theorem C7_counterexample :
    c7State.locateResult = Except.ok c7Repo ∧
    Util.init c7State { fallback_to_build_date := false } =
      Except.error Err.indexError :=
  ⟨rfl, rfl⟩

/-- Claim C7 (amended): for every successfully located repository, the
shallow-clone detection never alters the constructed resolver's state —
any successful construction yields exactly the bound, non-fallback state,
whatever warnings are logged; it only logs when the commit count succeeds
(and always succeeds when the shallow check is false); but when the
shallow check holds and `commit_count` raises, that error propagates out
of construction. -/
theorem C7_amended_detection_advisory (st : ProcState) (config : Config)
    (r : GitCmd) (hl : st.locateResult = Except.ok r) :
    (∀ u logs, Util.init st config = Except.ok (u, logs) →
      u = { fallback_enabled := false, repo := some r }) ∧
    (∀ e, Util.init st config = Except.error e →
      is_shallow_clone st r = true ∧ commit_count r = Except.error e) ∧
    (is_shallow_clone st r = true → ∀ n, commit_count r = Except.ok n →
      ∃ logs, Util.init st config =
        Except.ok ({ fallback_enabled := false, repo := some r }, logs)) ∧
    (is_shallow_clone st r = false →
      Util.init st config =
        Except.ok ({ fallback_enabled := false, repo := some r }, [])) := by
  unfold Util.init
  simp only [hl]
  cases hsh : is_shallow_clone st r with
  | false =>
    simp only [Bool.false_eq_true, if_false]
    refine ⟨?_, ?_, ?_, ?_⟩
    · intro u logs hu
      injection hu with hu'
      injection hu' with h1 h2
      exact h1.symm
    · intro e he; exact absurd he (by simp)
    · intro hf; simp at hf
    · intro _; trivial
  | true =>
    simp only [if_true]
    cases hcc : commit_count r with
    | error e =>
      simp only [hcc]
      refine ⟨?_, ?_, ?_, ?_⟩
      · intro u logs hu; exact absurd hu (by simp)
      · intro e' he'
        injection he' with he''
        exact ⟨by simp, by rw [he'']⟩
      · intro _ n hn; exact absurd hn (by simp)
      · intro hf; simp at hf
    | ok n =>
      simp only [hcc]
      refine ⟨?_, ?_, ?_, ?_⟩
      · intro u logs hu
        injection hu with hu'
        injection hu' with h1 h2
        exact h1.symm
      · intro e he; exact absurd he (by simp)
      · intro _ n' hn'; exact ⟨_, rfl⟩
      · intro hf; simp at hf

/-- Supporting repository for the C7 witness: one reference with count 2. -/
def c7wRepo : GitCmd :=
  { forEachRefOut := "e1 commit refs/heads/main"
    revListCount := fun _ => "2"
    logResult := fun _ => LogOutcome.ok none
    ownShallowMarker := true }

/-- Supporting state for the C7 witness. -/
def c7wState : ProcState :=
  { locateResult := Except.ok c7wRepo
    pathExists := fun p => p == ".git/shallow"
    gitlab_ci := none
    github_actions := some "true"
    nowTime := 0 }

/-- Witness for the amended C7: at a concrete shallow state with a
successful commit count, construction succeeds with the bound state. -/
theorem C7_amended_detection_advisory_witness :
    ∃ logs, Util.init c7wState { fallback_to_build_date := false } =
      Except.ok ({ fallback_enabled := false, repo := some c7wRepo }, logs) :=
  (C7_amended_detection_advisory c7wState { fallback_to_build_date := false }
    c7wRepo rfl).2.2.1 rfl 2 rfl

/-- Supporting repository for the C8 counterexample: its own metadata
directory has no shallow marker. -/
def c8Repo : GitCmd :=
  { forEachRefOut := "c1 commit refs/heads/main"
    revListCount := fun _ => "3"
    logResult := fun _ => LogOutcome.ok none
    ownShallowMarker := false }

/-- Supporting state for the C8 counterexample: `.git/shallow` exists in the
process working directory (a different repository's marker) and
`GITLAB_CI` is truthy. -/
def c8State : ProcState :=
  { locateResult := Except.ok c8Repo
    pathExists := fun p => p == ".git/shallow"
    gitlab_ci := some "1"
    github_actions := none
    nowTime := 0 }

/-- Counterexample to C8: the located repository's own metadata directory
does not contain the shallow marker, yet the advisory-warning path runs
(the GitLab warning is emitted) because the code checks `.git/shallow`
relative to the process working directory instead. -/
theorem C8_counterexample :
    c8Repo.ownShallowMarker = false ∧
    Util.init c8State { fallback_to_build_date := false } =
      Except.ok ({ fallback_enabled := false, repo := some c8Repo },
        [LogMsg.gitlabShallowWarning]) :=
  ⟨rfl, rfl⟩

/-- Claim C8 (amended): for every process state in which `.git/shallow`
does not exist relative to the current working directory, construction
with a located repository emits no advisory warning at all, regardless of
the environment variables and of the repository's own metadata. -/
theorem C8_amended_no_marker_no_warning (st : ProcState) (config : Config)
    (r : GitCmd) (hl : st.locateResult = Except.ok r)
    (hm : st.pathExists ".git/shallow" = false) :
    Util.init st config =
      Except.ok ({ fallback_enabled := false, repo := some r }, []) := by
  unfold Util.init
  simp only [hl]
  have hsh : is_shallow_clone st r = false := hm
  simp only [hsh, Bool.false_eq_true, if_false]

/-- Supporting state for the C8 witness: no `.git/shallow` in the working
directory, both CI environment variables truthy. -/
def c8wState : ProcState :=
  { locateResult := Except.ok c8Repo
    pathExists := fun _ => false
    gitlab_ci := some "1"
    github_actions := some "true"
    nowTime := 0 }

/-- Witness for the amended C8 at a concrete state with no marker file and
both CI environment variables set. -/
theorem C8_amended_no_marker_no_warning_witness :
    Util.init c8wState { fallback_to_build_date := false } =
      Except.ok ({ fallback_enabled := false, repo := some c8Repo }, []) :=
  C8_amended_no_marker_no_warning c8wState { fallback_to_build_date := false }
    c8Repo rfl rfl

theorem le_foldl_max_of_le (ys : List Int) (a b : Int) (h : a ≤ b) :
    a ≤ ys.foldl max b := by
  induction ys generalizing b with
  | nil => exact h
  | cons y ys ih =>
    simp only [List.foldl_cons]
    exact ih (max b y) (le_trans h (le_max_left b y))

theorem foldl_max_mem (x : Int) (xs : List Int) : xs.foldl max x ∈ x :: xs := by
  induction xs generalizing x with
  | nil => simp
  | cons y ys ih =>
    simp only [List.foldl_cons]
    rcases List.mem_cons.mp (ih (max x y)) with h1 | h1
    · rcases max_choice x y with hm | hm
      · rw [h1, hm]; exact List.mem_cons_self _ _
      · rw [h1, hm]; exact List.mem_cons_of_mem _ (List.mem_cons_self _ _)
    · exact List.mem_cons_of_mem _ (List.mem_cons_of_mem _ h1)

theorem le_foldl_max (x : Int) (xs : List Int) :
    ∀ c ∈ x :: xs, c ≤ xs.foldl max x := by
  induction xs generalizing x with
  | nil =>
    intro c hc
    simp only [List.mem_singleton] at hc
    simp [hc, List.foldl_nil]
  | cons y ys ih =>
    intro c hc
    simp only [List.foldl_cons]
    rcases List.mem_cons.mp hc with h1 | h1
    · exact le_foldl_max_of_le ys c (max x y) (h1 ▸ le_max_left x y)
    · rcases List.mem_cons.mp h1 with h2 | h2
      · exact le_foldl_max_of_le ys c (max x y) (h2 ▸ le_max_right x y)
      · exact ih (max x y) c (List.mem_cons_of_mem _ h2)

/-- Claim C9: whenever the reference listing parses into a non-empty list of
references and every per-reference count parses, `commit_count` returns a
count that is a member of the per-reference counts and an upper bound of
them — the maximum. -/
theorem C9_commit_count_is_max (r : GitCmd) (refs : List String)
    (counts : List Int)
    (h1 : firstTokens r.forEachRefOut = Except.ok refs)
    (h2 : refs.mapM (fun x => pyInt (r.revListCount x)) = Except.ok counts)
    (hne : counts ≠ []) :
    ∃ m, commit_count r = Except.ok m ∧ m ∈ counts ∧ ∀ c ∈ counts, c ≤ m := by
  unfold commit_count
  rw [h1, except_bind_ok, h2, except_bind_ok]
  cases counts with
  | nil => exact absurd rfl hne
  | cons x xs =>
    exact ⟨xs.foldl max x, rfl, foldl_max_mem x xs, le_foldl_max x xs⟩

/-- Supporting repository for the C9 witness: three references with
reachable counts 3, 1 and 7. -/
def c9Repo : GitCmd :=
  { forEachRefOut :=
      "a1 commit refs/heads/main\na2 commit refs/tags/v1\na3 commit refs/remotes/origin/main"
    revListCount := fun x => if x = "a1" then "3" else if x = "a2" then "1" else "7"
    logResult := fun _ => LogOutcome.ok none
    ownShallowMarker := true }

/-- Witness for C9: with reachable counts {3, 1, 7} the effective depth is
7, the maximum. -/
theorem C9_commit_count_is_max_witness :
    (∃ m, commit_count c9Repo = Except.ok m ∧ m ∈ [(3 : Int), 1, 7] ∧
      ∀ c ∈ [(3 : Int), 1, 7], c ≤ m) ∧
    commit_count c9Repo = Except.ok 7 :=
  ⟨C9_commit_count_is_max c9Repo ["a1", "a2", "a3"] [3, 1, 7] rfl rfl
    (by simp), rfl⟩

end GitRevDate
